import Mathlib

/- Verification of the secure-sqlite authorization core: a shallow embedding of
   the permission model, the RBAC decision engine (pkg/rbac/rbac.go), the
   in-memory authorization store (pkg/auth/memory.go), the security rewriter
   (SecurityTransformer) and the Exec pipeline (pkg/secure_sqlite/query.go),
   together with theorems settling the specification claims. -/

namespace SecureSqlite

/-- Permission granularity, from pkg/permissions/types.go (PermissionType). -/
inductive PermissionType where
  | table
  | column
  | row
deriving DecidableEq, Repr

/-- Database action, from pkg/permissions/types.go (Action). -/
inductive Action where
  | select
  | insert
  | update
  | delete
  | create
  | drop
  | alter
deriving DecidableEq, Repr

/-- Marker written in front of a condition to tombstone a row permission
    (RevokedPermissionPrefix in pkg/permissions/types.go). -/
def revokedMarker : String := "REVOKED:"

/-- Wildcard table target (WildcardPermission in pkg/permissions/types.go). -/
def wildcard : String := "*"

/-- Model of strings.HasPrefix over the character lists of the strings. -/
def strStarts (s pre : String) : Bool :=
  List.isPrefixOf pre.data s.data

/-- Permission record, from pkg/permissions/types.go (Permission). -/
structure Permission where
  type : PermissionType
  table : String
  column : String := ""
  condition : String := ""
  action : Action := Action.select
deriving DecidableEq, Repr

/-- Synthesized row-level rule, from pkg/permissions/types.go
    (RowPermissionRule). -/
structure RowPermissionRule where
  granted : Bool
deriving DecidableEq, Repr

/-- The table-matching test repeated in HasTablePermission,
    HasColumnPermission, GetRowPermissions and CheckQueryPermissions:
    the record type equals the requested one and the table field equals the
    requested table or the wildcard. -/
def permMatchesB (tableName : String) (pt : PermissionType) (p : Permission) : Bool :=
  p.type == pt && (p.table == tableName || p.table == wildcard)

/-- Rule synthesized for one matching record in GetRowPermissions:
    granted iff the condition does not carry the revoked marker. -/
def rowRuleOf (p : Permission) : RowPermissionRule :=
  { granted := !(strStarts p.condition revokedMarker) }

/-- HasTablePermission (pkg/rbac/rbac.go). The store read is abstracted to the
    fetched permission list. -/
def hasTablePermission (username : String) (perms : List Permission)
    (tableName : String) (permission : PermissionType) : Except String Bool :=
  if username = "" then Except.error "username cannot be empty"
  else Except.ok (perms.any (permMatchesB tableName permission))

/-- HasColumnPermission (pkg/rbac/rbac.go). The loop tests only the record
    type and table; neither the columnName argument nor the stored column
    field is consulted. -/
def hasColumnPermission (username : String) (perms : List Permission)
    (tableName columnName : String) (permission : PermissionType) : Except String Bool :=
  if username = "" then Except.error "username cannot be empty"
  else Except.ok (perms.any (permMatchesB tableName permission))

/-- GetRowPermissions (pkg/rbac/rbac.go): one synthesized rule per matching
    record, appended in scan order; a single non-granted rule when the scan
    finds nothing. -/
def getRowPermissions (username : String) (perms : List Permission)
    (tableName : String) (permission : PermissionType) : Except String (List RowPermissionRule) :=
  if username = "" then Except.error "username cannot be empty"
  else
    let rules := perms.foldl
      (fun acc p => if permMatchesB tableName permission p then acc ++ [rowRuleOf p] else acc) []
    if rules.isEmpty then Except.ok [{ granted := false }] else Except.ok rules

/-- CheckQueryPermissions (pkg/rbac/rbac.go): require a table-scope hit, then,
    when any row-scope record matches the table, require the first synthesized
    row rule to be granted. The permission argument is accepted but unused, as
    in the source. -/
def checkQueryPermissions (username : String) (perms : List Permission)
    (tableName : String) (permission : PermissionType) : Except String Bool :=
  let hasTable := perms.any (permMatchesB tableName PermissionType.table)
  if !hasTable then Except.ok false
  else
    let hasRow := perms.any (permMatchesB tableName PermissionType.row)
    if hasRow then
      match getRowPermissions username perms tableName PermissionType.row with
      | Except.error e => Except.error e
      | Except.ok rowPerms =>
        match rowPerms with
        | [] => Except.ok false
        | r :: _ => Except.ok r.granted
    else Except.ok true

/-- GrantTablePermission (pkg/rbac/rbac.go), as the list transformation it
    performs between the store read and the store write. -/
def grantTablePermission (perms : List Permission) (tableName : String)
    (permission : PermissionType) : List Permission :=
  perms ++ [{ type := permission, table := tableName }]

/-- GrantRowPermission (pkg/rbac/rbac.go): appends a record carrying the
    condition. -/
def grantRowPermission (perms : List Permission) (tableName condition : String)
    (permission : PermissionType) : List Permission :=
  perms ++ [{ type := permission, table := tableName, condition := condition }]

/-- RevokeRowPermission (pkg/rbac/rbac.go): rewrites the condition of the
    first record matching type, table and condition with the revoked marker,
    leaving the record in place; no match leaves the list unchanged. -/
def revokeRowPermission (perms : List Permission) (tableName condition : String)
    (permission : PermissionType) : List Permission :=
  match perms with
  | [] => []
  | p :: rest =>
    if p.type == permission && p.table == tableName && p.condition == condition then
      { p with condition := revokedMarker ++ condition } :: rest
    else
      p :: revokeRowPermission rest tableName condition permission

/-- In-memory authorization store, from pkg/auth/memory.go (MemoryProvider):
    a username-to-token association and a per-user permission list (absent
    users map to the empty list, as a Go map does). -/
structure MemoryProvider where
  users : List (String × String)
  permissions : String → List Permission

/-- Token stored for a username; the empty string when the user is absent,
    mirroring the Go map zero value in Authenticate. -/
def MemoryProvider.lookupToken (st : MemoryProvider) (username : String) : String :=
  match st.users.lookup username with
  | some tok => tok
  | none => ""

/-- Authenticate (pkg/auth/memory.go): compares the stored token with the
    presented one. -/
def authenticate (st : MemoryProvider) (username token : String) : Bool :=
  st.lookupToken username == token

/-- GetUserPermissions (pkg/auth/memory.go): errors for an unknown user,
    otherwise returns the stored list. -/
def getUserPermissions (st : MemoryProvider) (username : String) : Except String (List Permission) :=
  if (st.users.lookup username).isSome then Except.ok (st.permissions username)
  else Except.error "user not found"

/-- UpdateUserPermissions (pkg/auth/memory.go): replaces the entire stored
    permission list of the user. -/
def updateUserPermissions (st : MemoryProvider) (username : String)
    (ps : List Permission) : MemoryProvider :=
  { st with permissions := Function.update st.permissions username ps }

/-- AssignRoleToUser (pkg/rbac/rbac.go): after the Authenticate gate with an
    empty token, writes a permission list containing only the table-scope role
    marker. -/
def assignRoleToUser (st : MemoryProvider) (username roleName : String) :
    Except String MemoryProvider :=
  if authenticate st username "" then
    Except.ok (updateUserPermissions st username
      [{ type := PermissionType.table, table := roleName }])
  else Except.error "user not found"

/-- Boolean SQL predicate, as the rewriter manipulates it: a stored condition
    string is an atomic predicate, and AndExpr of the external parser is the
    binary conjunction node. -/
inductive SqlExpr where
  | atom (s : String)
  | andE (l r : SqlExpr)
deriving DecidableEq, Repr

/-- Truth value of a predicate over a row, the row being abstracted to the
    truth assignment it induces on atomic predicates. -/
def evalExpr (env : String → Bool) : SqlExpr → Bool
  | SqlExpr.atom s => env s
  | SqlExpr.andE l r => evalExpr env l && evalExpr env r

/-- Truth value of an optional WHERE clause; a missing clause keeps every
    row. -/
def evalWhere (env : String → Bool) : Option SqlExpr → Bool
  | none => true
  | some e => evalExpr env e

/-- FROM-clause entry: table name and optional alias (AliasedTableExpr). -/
structure TableRef where
  name : String
  asName : String := ""
deriving DecidableEq, Repr

/-- SELECT statement as the rewriter sees it: the FROM entries and the
    optional WHERE clause (projections are untouched by the rewriter). -/
structure SelectStmt where
  fromTables : List TableRef
  whereE : Option SqlExpr := none
deriving DecidableEq, Repr

/-- getTableAlias (SecurityTransformer): first FROM entry naming the table
    with a non-empty alias; the empty string when none exists. -/
def getTableAlias (fromTables : List TableRef) (table : String) : String :=
  match fromTables.find? (fun tr => tr.name == table && tr.asName != "") with
  | some tr => tr.asName
  | none => ""

/-- getRowLevelSecurityConditions (SecurityTransformer): validates the inputs,
    takes the first row-scope record whose table equals the requested one
    (no wildcard here), and alias-qualifies the identity column when the
    current statement gives the table an alias. -/
def getRowLevelSecurityConditions (fromTables : List TableRef)
    (perms : List Permission) (userID : Int) (table : String) : Except String String :=
  if table = "" then Except.error "table name cannot be empty"
  else if userID ≤ 0 then Except.error "invalid user ID"
  else
    match perms.find? (fun p => p.type == PermissionType.row && p.table == table) with
    | some p =>
      let a := getTableAlias fromTables table
      if a != "" then Except.ok (p.condition.replace "user_id" (a ++ ".user_id"))
      else Except.ok p.condition
    | none => Except.ok ""

/-- Condition-collection loop of addSelectSecurity: one store consultation per
    referenced table, keeping non-empty conditions in table order. -/
def collectConditions (fromTables : List TableRef) (perms : List Permission)
    (userID : Int) : List String → Except String (List String)
  | [] => Except.ok []
  | t :: rest =>
    match getRowLevelSecurityConditions fromTables perms userID t with
    | Except.error e => Except.error e
    | Except.ok c =>
      match collectConditions fromTables perms userID rest with
      | Except.error e => Except.error e
      | Except.ok cs => Except.ok (if c != "" then c :: cs else cs)

/-- Expression produced by parsing the conditions joined with AND; SQL AND is
    left-associative, so the parse of the join is a left-nested conjunction of
    the individual conditions. -/
def joinedExpr : List String → SqlExpr
  | [] => SqlExpr.atom ""
  | c :: rest => rest.foldl (fun acc d => SqlExpr.andE acc (SqlExpr.atom d)) (SqlExpr.atom c)

/-- addSelectSecurity (SecurityTransformer): collects the per-table
    conditions; when any exist, installs them as the WHERE clause, or conjoins
    them to the right of an existing clause. -/
def addSelectSecurity (perms : List Permission) (userID : Int)
    (s : SelectStmt) : Except String SelectStmt :=
  match collectConditions s.fromTables perms userID (s.fromTables.map TableRef.name) with
  | Except.error e => Except.error e
  | Except.ok conditions =>
    if conditions.isEmpty then Except.ok s
    else
      let condExpr := joinedExpr conditions
      match s.whereE with
      | none => Except.ok { s with whereE := some condExpr }
      | some e => Except.ok { s with whereE := some (SqlExpr.andE e condExpr) }

/-- TransformQuery (SecurityTransformer), SELECT case: a user with no
    row-scope record at all passes through unchanged; otherwise
    addSelectSecurity runs. -/
def transformQuery (perms : List Permission) (userID : Int)
    (s : SelectStmt) : Except String SelectStmt :=
  if perms.any (fun p => p.type == PermissionType.row) then
    addSelectSecurity perms userID s
  else Except.ok s

/-- Statement shapes distinguished by the Exec switch
    (pkg/secure_sqlite/query.go), carrying the tables and columns the switch
    extracts. -/
inductive Stmt where
  | selectS (tables : List String) (columns : List String)
  | insertS (table : String) (columns : List String)
  | updateS (table : String) (columns : List String)
  | deleteS (table : String)
  | ddl
deriving DecidableEq, Repr

/-- Outcome of Exec: the statement reached the underlying engine, or a
    pre-check error surfaced, or a permission denial named an object. -/
inductive ExecResult where
  | executed
  | errorR (msg : String)
  | denied (msg : String)
deriving DecidableEq, Repr

/-- Tables the Exec switch extracts from each statement shape. -/
def extractTables : Stmt → List String
  | Stmt.selectS ts _ => ts
  | Stmt.insertS t _ => [t]
  | Stmt.updateS t _ => [t]
  | Stmt.deleteS t => [t]
  | Stmt.ddl => []

/-- Columns the Exec switch extracts from each statement shape. -/
def extractColumns : Stmt → List String
  | Stmt.selectS _ cs => cs
  | Stmt.insertS _ cs => cs
  | Stmt.updateS _ cs => cs
  | Stmt.deleteS _ => []
  | Stmt.ddl => []

/-- Table-level check loop of Exec: first error or denial stops the scan. -/
def checkTables (username : String) (perms : List Permission)
    (pt : PermissionType) : List String → Option ExecResult
  | [] => none
  | t :: rest =>
    match hasTablePermission username perms t pt with
    | Except.error _ => some (ExecResult.errorR t)
    | Except.ok true => checkTables username perms pt rest
    | Except.ok false => some (ExecResult.denied t)

/-- Per-table column check loop of Exec. -/
def checkColumnsOfTable (username : String) (perms : List Permission)
    (pt : PermissionType) (t : String) : List String → Option ExecResult
  | [] => none
  | c :: rest =>
    match hasColumnPermission username perms t c pt with
    | Except.error _ => some (ExecResult.errorR c)
    | Except.ok true => checkColumnsOfTable username perms pt t rest
    | Except.ok false => some (ExecResult.denied c)

/-- Column-level check loop of Exec over all tables. -/
def checkColumns (username : String) (perms : List Permission)
    (pt : PermissionType) (columns : List String) : List String → Option ExecResult
  | [] => none
  | t :: rest =>
    match checkColumnsOfTable username perms pt t columns with
    | some r => some r
    | none => checkColumns username perms pt columns rest

/-- Row-level check loop of Exec: a non-empty rule list with a non-granted
    first rule denies the table. -/
def checkRows (username : String) (perms : List Permission)
    (pt : PermissionType) : List String → Option ExecResult
  | [] => none
  | t :: rest =>
    match getRowPermissions username perms t pt with
    | Except.error _ => some (ExecResult.errorR t)
    | Except.ok rowPerms =>
      match rowPerms with
      | [] => checkRows username perms pt rest
      | r :: _ =>
        if r.granted then checkRows username perms pt rest
        else some (ExecResult.denied t)

/-- getPermissionType (pkg/secure_sqlite/query.go): every action maps to the
    table permission type. -/
def getPermissionType (a : Action) : PermissionType :=
  match a with
  | Action.select => PermissionType.table
  | Action.insert => PermissionType.table
  | Action.update => PermissionType.table
  | Action.delete => PermissionType.table
  | Action.create => PermissionType.table
  | Action.drop => PermissionType.table
  | Action.alter => PermissionType.table

/-- Whitespace test used by the model of strings.TrimSpace. -/
def charIsSpace (c : Char) : Bool :=
  c == ' ' || c == '\t' || c == '\n' || c == '\r'

/-- Model of strings.ToUpper followed by strings.TrimSpace, over the character
    list of the query text. -/
def upperTrim (query : String) : List Char :=
  (((query.data.map Char.toUpper).dropWhile charIsSpace).reverse.dropWhile charIsSpace).reverse

/-- getActionType (pkg/secure_sqlite/query.go): classifies the statement text
    by its leading keyword after uppercasing and trimming. -/
def getActionType (query : String) : Except String Action :=
  let q := upperTrim query
  if List.isPrefixOf "SELECT".data q then Except.ok Action.select
  else if List.isPrefixOf "INSERT".data q then Except.ok Action.insert
  else if List.isPrefixOf "UPDATE".data q then Except.ok Action.update
  else if List.isPrefixOf "DELETE".data q then Except.ok Action.delete
  else if List.isPrefixOf "CREATE".data q then Except.ok Action.create
  else if List.isPrefixOf "DROP".data q then Except.ok Action.drop
  else if List.isPrefixOf "ALTER".data q then Except.ok Action.alter
  else Except.error "unsupported query type"

/-- Body of Exec after parsing: the DDL arm of the extraction switch hands the
    statement to the underlying engine at once; every other shape runs the
    table, column (insert and update only) and row check loops first. -/
def execStmt (username : String) (perms : List Permission)
    (action : Action) (stmt : Stmt) : ExecResult :=
  match stmt with
  | Stmt.ddl => ExecResult.executed
  | _ =>
    let tables := extractTables stmt
    let columns := extractColumns stmt
    let pt := getPermissionType action
    match checkTables username perms pt tables with
    | some r => r
    | none =>
      let colCheck :=
        match action with
        | Action.insert => checkColumns username perms pt columns tables
        | Action.update => checkColumns username perms pt columns tables
        | _ => none
      match colCheck with
      | some r => r
      | none =>
        match checkRows username perms pt tables with
        | some r => r
        | none => ExecResult.executed

/-- Exec (pkg/secure_sqlite/query.go): action classification, then the
    post-parse body. Parsing itself belongs to the external parser; the parsed
    shape is the stmt argument. -/
def exec (username : String) (perms : List Permission)
    (query : String) (stmt : Stmt) : ExecResult :=
  match getActionType query with
  | Except.error e => ExecResult.errorR e
  | Except.ok action => execStmt username perms action stmt

/-- Fact: the first hit of a scan is the head of the list of all hits. -/
theorem find_eq_head_filter {α : Type} (f : α → Bool) :
    ∀ l : List α, l.find? f = (l.filter f).head? := by
  intro l
  induction l with
  | nil => rfl
  | cons p rest ih =>
    cases hf : f p <;> simp only [List.find?, List.filter, hf, ih, List.head?]

/-- Fact: the rule-collecting fold of GetRowPermissions appends exactly the
    image of the matching records. -/
theorem foldl_append_filter {α β : Type} (f : α → Bool) (g : α → β) :
    ∀ (l : List α) (acc : List β),
      l.foldl (fun a p => if f p then a ++ [g p] else a) acc
        = acc ++ (l.filter f).map g := by
  intro l
  induction l with
  | nil => intro acc; simp
  | cons p rest ih =>
    intro acc
    cases hf : f p <;> simp [List.foldl, hf, ih, List.filter]

/-- Fact: a scan hits something exactly when the list of hits is non-empty. -/
theorem any_iff_filter_ne_nil {α : Type} (f : α → Bool) (l : List α) :
    l.any f = true ↔ l.filter f ≠ [] := by
  rw [List.any_eq_true, Ne, List.filter_eq_nil_iff]
  push_neg
  simp

/-- Fact: the Boolean match test unfolded to a proposition. -/
theorem permMatchesB_eq_true (t : String) (s : PermissionType) (p : Permission) :
    permMatchesB t s p = true ↔ p.type = s ∧ (p.table = t ∨ p.table = wildcard) := by
  simp [permMatchesB]

/-- Closed form of getRowPermissions for a non-empty username, in terms of the
    matching records. -/
theorem getRowPermissions_eq_filter (u : String) (hu : u ≠ "") (perms : List Permission)
    (t : String) (s : PermissionType) :
    getRowPermissions u perms t s =
      (if (perms.filter (permMatchesB t s)).isEmpty
       then Except.ok [{ granted := false }]
       else Except.ok ((perms.filter (permMatchesB t s)).map rowRuleOf)) := by
  unfold getRowPermissions
  rw [if_neg hu, foldl_append_filter]
  simp

/-- Spec-side predicate: the list holds a table-scope record for the table or
    the wildcard. -/
abbrev TableGrantExists (perms : List Permission) (tableName : String) : Prop :=
  ∃ p ∈ perms, p.type = PermissionType.table ∧ (p.table = tableName ∨ p.table = wildcard)

/-- Spec-side predicate: the list holds a row-scope record for the table or
    the wildcard. -/
abbrev RowRecordExists (perms : List Permission) (tableName : String) : Prop :=
  ∃ p ∈ perms, p.type = PermissionType.row ∧ (p.table = tableName ∨ p.table = wildcard)

/-- Spec-side view: the first row-scope record matching the table, the one
    whose synthesized rule the composite check consults. -/
abbrev firstRowRecord (perms : List Permission) (tableName : String) : Option Permission :=
  perms.find? (permMatchesB tableName PermissionType.row)

/-- Spec-side reading of the claim about hasTablePermission: a non-tombstoned
    record of the requested type for the table or the wildcard. -/
abbrev NonTombstonedMatch (perms : List Permission) (tableName : String)
    (s : PermissionType) : Prop :=
  ∃ p ∈ perms, strStarts p.condition revokedMarker = false ∧
    p.type = s ∧ (p.table = tableName ∨ p.table = wildcard)

/-- Permission list whose only record is a tombstoned row record for t. -/
def c2perms : List Permission :=
  [{ type := PermissionType.row, table := "t", condition := "REVOKED:x" }]

/-- C2 counterexample: hasTablePermission answers true on a list whose only
    matching record is tombstoned, so the claimed equivalence with the
    existence of a non-tombstoned matching record fails at this input. -/
theorem c2_counterexample :
    hasTablePermission "u" c2perms "t" PermissionType.row = Except.ok true ∧
    ¬ NonTombstonedMatch c2perms "t" PermissionType.row :=
  ⟨rfl, by decide⟩

/-- C2 (amended): for a non-empty username, hasTablePermission is true exactly
    when some record has the requested type and a table field equal to the
    requested table or the wildcard; tombstoning is not consulted. -/
theorem c2_hasTablePermission_iff (u : String) (perms : List Permission)
    (t : String) (s : PermissionType) (hu : u ≠ "") :
    hasTablePermission u perms t s = Except.ok true ↔
      ∃ p ∈ perms, p.type = s ∧ (p.table = t ∨ p.table = wildcard) := by
  unfold hasTablePermission
  rw [if_neg hu]
  simp [List.any_eq_true, permMatchesB_eq_true]

/-- Witness for C2: the amended equivalence applied at a concrete input. -/
theorem c2_hasTablePermission_iff_witness :
    hasTablePermission "u" c2perms "t" PermissionType.row = Except.ok true :=
  (c2_hasTablePermission_iff "u" c2perms "t" PermissionType.row (by decide)).mpr
    ⟨{ type := PermissionType.row, table := "t", condition := "REVOKED:x" },
      by decide, by decide⟩

/-- Permission list with one granted and one tombstoned matching row record. -/
def c4perms : List Permission :=
  [ { type := PermissionType.row, table := "t", condition := "a" },
    { type := PermissionType.row, table := "t", condition := "REVOKED:b" } ]

/-- C4 counterexample: with one granted and one tombstoned matching record the
    output pairs a non-granted rule with the granted one; the claim predicts
    either the granted-rules-only list or the single default rule, and the
    output is neither. -/
theorem c4_counterexample :
    getRowPermissions "u" c4perms "t" PermissionType.row =
      Except.ok [{ granted := true }, { granted := false }] ∧
    ([{ granted := true }, { granted := false }] : List RowPermissionRule) ≠
      [{ granted := true }] ∧
    ([{ granted := true }, { granted := false }] : List RowPermissionRule) ≠
      [{ granted := false }] :=
  ⟨rfl, by decide, by decide⟩

/-- C4 (amended): for a non-empty username, getRowPermissions returns one rule
    per matching record in scan order, granted exactly when the record is not
    tombstoned, and the single non-granted default when nothing matches; the
    returned list is never empty. -/
theorem c4_getRowPermissions_shape (u t : String) (perms : List Permission)
    (s : PermissionType) (hu : u ≠ "") :
    ∃ rules, getRowPermissions u perms t s = Except.ok rules ∧
      rules ≠ [] ∧
      (perms.filter (permMatchesB t s) ≠ [] →
        rules = (perms.filter (permMatchesB t s)).map rowRuleOf) ∧
      (perms.filter (permMatchesB t s) = [] → rules = [{ granted := false }]) := by
  rw [getRowPermissions_eq_filter u hu]
  cases hf : perms.filter (permMatchesB t s) with
  | nil =>
    refine ⟨[{ granted := false }], by simp, by simp, ?_, fun _ => rfl⟩
    intro hne
    exact absurd rfl hne
  | cons p tl =>
    refine ⟨(p :: tl).map rowRuleOf, by simp, by simp, fun _ => rfl, ?_⟩
    intro hnil
    exact absurd hnil (by simp)

/-- Witness for C4: the amended statement applied at a concrete input. -/
theorem c4_getRowPermissions_shape_witness :
    ∃ rules, getRowPermissions "u" c4perms "t" PermissionType.row = Except.ok rules ∧
      rules ≠ [] ∧
      (c4perms.filter (permMatchesB "t" PermissionType.row) ≠ [] →
        rules = (c4perms.filter (permMatchesB "t" PermissionType.row)).map rowRuleOf) ∧
      (c4perms.filter (permMatchesB "t" PermissionType.row) = [] →
        rules = [{ granted := false }]) :=
  c4_getRowPermissions_shape "u" "t" c4perms PermissionType.row (by decide)

/-- Permission list holding a table grant, a granted row record, and a later
    tombstoned row record for the same table. -/
def c1perms : List Permission :=
  [ { type := PermissionType.table, table := "t" },
    { type := PermissionType.row, table := "t", condition := "user_id = 1" },
    { type := PermissionType.row, table := "t", condition := "REVOKED:user_id = 2" } ]

/-- C1 counterexample: a tombstoned row record for the table coexists with a
    table grant, yet checkQueryPermissions answers true, because only the
    first row record (here granted) is consulted; the claimed consequence
    (false whenever some row record for the table is tombstoned) fails. -/
theorem c1_counterexample :
    checkQueryPermissions "u" c1perms "t" PermissionType.table = Except.ok true ∧
    ({ type := PermissionType.row, table := "t",
       condition := "REVOKED:user_id = 2" } : Permission) ∈ c1perms ∧
    strStarts "REVOKED:user_id = 2" revokedMarker = true ∧
    TableGrantExists c1perms "t" :=
  ⟨rfl, by decide, by decide, by decide⟩

/-- C1 (amended): for a non-empty username, checkQueryPermissions is true
    exactly when a table-scope hit exists and, whenever some row-scope record
    matches the table, the FIRST such record is not tombstoned; in particular
    it is false whenever the first row-scope record for the table is
    tombstoned, even in the presence of a table grant. -/
theorem c1_checkQueryPermissions_spec (u t : String) (perms : List Permission)
    (s : PermissionType) (hu : u ≠ "") :
    (checkQueryPermissions u perms t s = Except.ok true ↔
      TableGrantExists perms t ∧
        (RowRecordExists perms t →
          ∃ p, firstRowRecord perms t = some p ∧
            strStarts p.condition revokedMarker = false)) ∧
    (∀ p, firstRowRecord perms t = some p →
      strStarts p.condition revokedMarker = true →
      checkQueryPermissions u perms t s = Except.ok false) := by
  have hTable : perms.any (permMatchesB t PermissionType.table) = true ↔
      TableGrantExists perms t := by
    simp [List.any_eq_true, permMatchesB_eq_true]
  have hRow : perms.any (permMatchesB t PermissionType.row) = true ↔
      RowRecordExists perms t := by
    simp [List.any_eq_true, permMatchesB_eq_true]
  unfold checkQueryPermissions
  cases hA : perms.any (permMatchesB t PermissionType.table) with
  | false =>
    constructor
    · simp only [Bool.not_false, if_true]
      constructor
      · intro h
        exact absurd h (by simp)
      · rintro ⟨hg, -⟩
        exact absurd (hTable.mpr hg) (by simp [hA])
    · intro p hp hrev
      simp
  | true =>
    cases hR : perms.any (permMatchesB t PermissionType.row) with
    | false =>
      have hNoFind : perms.find? (permMatchesB t PermissionType.row) = none := by
        rw [find_eq_head_filter]
        have : perms.filter (permMatchesB t PermissionType.row) = [] := by
          by_contra hne
          exact absurd ((any_iff_filter_ne_nil _ _).mpr hne) (by simp [hR])
        simp [this]
      constructor
      · simp only [Bool.not_true, if_false, if_neg]
        constructor
        · intro _
          refine ⟨hTable.mp hA, fun hr => absurd (hRow.mpr hr) (by simp [hR])⟩
        · intro _
          simp
      · intro p hp hrev
        rw [firstRowRecord] at hp
        rw [hNoFind] at hp
        exact absurd hp (by simp)
    | true =>
      have hne : perms.filter (permMatchesB t PermissionType.row) ≠ [] :=
        (any_iff_filter_ne_nil _ _).mp hR
      obtain ⟨p0, tl, hcons⟩ := List.exists_cons_of_ne_nil hne
      have hfind : firstRowRecord perms t = some p0 := by
        rw [firstRowRecord, find_eq_head_filter, hcons]
        rfl
      have hrows : getRowPermissions u perms t PermissionType.row =
          Except.ok (rowRuleOf p0 :: tl.map rowRuleOf) := by
        rw [getRowPermissions_eq_filter u hu, hcons]
        simp
      rw [hrows]
      constructor
      · rw [if_neg (by simp)]
        simp only [eq_self_iff_true, if_true]
        constructor
        · intro h
          refine ⟨hTable.mp hA, fun _ => ⟨p0, hfind, ?_⟩⟩
          have : (rowRuleOf p0).granted = true := by
            have := (Except.ok.injEq _ _).mp h
            simpa using this
          simpa [rowRuleOf] using this
        · rintro ⟨-, himp⟩
          obtain ⟨p, hp, hrev⟩ := himp (hRow.mp hR)
          rw [hfind] at hp
          injection hp with hpe
          subst hpe
          simp [rowRuleOf, hrev]
      · intro p hp hrev
        rw [hfind] at hp
        injection hp with hpe
        subst hpe
        rw [if_neg (by simp)]
        simp only [eq_self_iff_true, if_true]
        simp [rowRuleOf, hrev]

/-- Table-grant-only list used to instantiate the C1 theorem. -/
def c1wperms : List Permission := [ { type := PermissionType.table, table := "t" } ]

/-- Witness for C1: the amended characterization applied at a concrete input
    where a table grant and no row record exist. -/
theorem c1_checkQueryPermissions_spec_witness :
    checkQueryPermissions "alice" c1wperms "t" PermissionType.table = Except.ok true :=
  (c1_checkQueryPermissions_spec "alice" "t" c1wperms PermissionType.table
      (by decide)).1.mpr
    ⟨⟨{ type := PermissionType.table, table := "t" }, by decide, by decide⟩,
      fun h => absurd h (by decide)⟩

/-- Starting list of the revoke-then-regrant scenario: one granted row
    condition. -/
def c3start : List Permission :=
  [ { type := PermissionType.row, table := "t", condition := "user_id = 1" } ]

/-- List after revoking the condition and granting a different one, as the
    grant and revoke operations compute it. -/
def c3after : List Permission :=
  grantRowPermission (revokeRowPermission c3start "t" "user_id = 1" PermissionType.row)
    "t" "user_id = 2" PermissionType.row

/-- C3 (code bug): after revoking the row condition and re-granting the same
    user, table and scope with a new condition, the rule list opens with the
    stale non-granted rule synthesized from the tombstoned record, and the
    composite check, which consults only the first rule, denies the query; the
    synthesized rules carry no condition field at all, so the new condition is
    never surfaced. -/
theorem c3_revoke_regrant_stale :
    getRowPermissions "u" c3after "t" PermissionType.row =
      Except.ok [{ granted := false }, { granted := true }] ∧
    checkQueryPermissions "u"
      (({ type := PermissionType.table, table := "t" } : Permission) :: c3after)
      "t" PermissionType.table = Except.ok false ∧
    c3after = [ { type := PermissionType.row, table := "t",
                  condition := "REVOKED:user_id = 1" },
                { type := PermissionType.row, table := "t",
                  condition := "user_id = 2" } ] :=
  ⟨rfl, rfl, rfl⟩

/-- Permission list whose only record is a row record with an empty
    condition. -/
def c5perms : List Permission := [ { type := PermissionType.row, table := "t" } ]

/-- C5 (code bug): a row-scope record with an empty condition synthesizes a
    granted rule, and next to a table grant the composite check passes, so an
    absent condition grants rather than denies. -/
theorem c5_empty_condition_granted :
    ({ type := PermissionType.row, table := "t" } : Permission).condition = "" ∧
    getRowPermissions "u" c5perms "t" PermissionType.row =
      Except.ok [{ granted := true }] ∧
    checkQueryPermissions "u"
      (({ type := PermissionType.table, table := "t" } : Permission) :: c5perms)
      "t" PermissionType.table = Except.ok true :=
  ⟨rfl, rfl, rfl⟩

/-- C6 (confirmed): hasColumnPermission answers identically for any two column
    names; the scan consults only the type and table fields of each record,
    and neither the queried column nor the stored column field enters the
    match. -/
theorem c6_column_not_consulted (u : String) (perms : List Permission)
    (t c1 c2 : String) (s : PermissionType) (hu : u ≠ "") :
    hasColumnPermission u perms t c1 s = hasColumnPermission u perms t c2 s := rfl

/-- Permission list used to instantiate the C6 theorem. -/
def c6perms : List Permission :=
  [ { type := PermissionType.column, table := "t", column := "salary" } ]

/-- Witness for C6: the equality applied at a concrete input with two
    different column names, one of them the stored column and one not. -/
theorem c6_column_not_consulted_witness :
    hasColumnPermission "u" c6perms "t" "salary" PermissionType.column =
      hasColumnPermission "u" c6perms "t" "name" PermissionType.column :=
  c6_column_not_consulted "u" c6perms "t" "salary" "name" PermissionType.column
    (by decide)

/-- C7 (confirmed): when the statement references one unaliased table, already
    has a WHERE predicate, and the user holds a non-tombstoned, non-empty row
    condition as the first row record for that table, the rewriter produces
    the statement whose WHERE clause is the conjunction with the existing
    predicate on the left and the security condition on the right, and the
    truth value of the new clause is the Boolean conjunction of the two, so
    the original predicate stays a necessary condition. -/
theorem c7_rewrite_conjoins_existing_where (perms : List Permission) (userID : Int)
    (t c : String) (e : SqlExpr) (s : SelectStmt) (pc : Permission)
    (huid : 0 < userID)
    (hfrom : s.fromTables = [{ name := t }])
    (ht : t ≠ "")
    (hwhere : s.whereE = some e)
    (hfind : perms.find? (fun p => p.type == PermissionType.row && p.table == t) = some pc)
    (hcond : pc.condition = c)
    (hc : c ≠ "")
    (hnt : strStarts c revokedMarker = false) :
    transformQuery perms userID s =
      Except.ok { s with whereE := some (SqlExpr.andE e (SqlExpr.atom c)) } ∧
    ∀ env : String → Bool,
      evalExpr env (SqlExpr.andE e (SqlExpr.atom c)) =
        (evalExpr env e && evalExpr env (SqlExpr.atom c)) := by
  have hmem : pc ∈ perms := List.mem_of_find?_eq_some hfind
  have hpred : (pc.type == PermissionType.row && pc.table == t) = true := by
    have h := List.find?_some hfind
    simpa using h
  have hAny : perms.any (fun p => p.type == PermissionType.row) = true := by
    rw [List.any_eq_true]
    exact ⟨pc, hmem, by simpa using (Bool.and_eq_true _ _ |>.mp hpred).1⟩
  have hAlias : getTableAlias [{ name := t }] t = "" := by
    unfold getTableAlias
    simp [List.find?]
  have hcondOk : getRowLevelSecurityConditions [{ name := t }] perms userID t =
      Except.ok c := by
    unfold getRowLevelSecurityConditions
    rw [if_neg ht, if_neg (by omega)]
    rw [hfind, hAlias]
    simp [hcond]
  have hcollect : collectConditions [{ name := t }] perms userID [t] =
      Except.ok [c] := by
    unfold collectConditions
    rw [hcondOk]
    unfold collectConditions
    simp [hc]
  constructor
  · unfold transformQuery
    rw [hAny]
    unfold addSelectSecurity
    rw [hfrom]
    simp only [List.map]
    rw [hcollect]
    simp only [List.isEmpty, if_false]
    rw [hwhere]
    rfl
  · intro env
    rfl

/-- Permission list of the rewriter scenarios: a single granted row condition
    on the orders table. -/
def c8perms : List Permission :=
  [ { type := PermissionType.row, table := "orders", condition := "user_id = 1" } ]

/-- SELECT over orders with an existing WHERE predicate. -/
def c8stmt : SelectStmt :=
  { fromTables := [{ name := "orders" }], whereE := some (SqlExpr.atom "id = 1") }

/-- Witness for C7: the theorem applied to the concrete statement with the
    predicate id = 1 and the stored condition user_id = 1. -/
theorem c7_rewrite_conjoins_existing_where_witness :
    transformQuery c8perms 1 c8stmt =
      Except.ok { c8stmt with
        whereE := some (SqlExpr.andE (SqlExpr.atom "id = 1") (SqlExpr.atom "user_id = 1")) } ∧
    ∀ env : String → Bool,
      evalExpr env (SqlExpr.andE (SqlExpr.atom "id = 1") (SqlExpr.atom "user_id = 1")) =
        (evalExpr env (SqlExpr.atom "id = 1") &&
          evalExpr env (SqlExpr.atom "user_id = 1")) :=
  c7_rewrite_conjoins_existing_where c8perms 1 "orders" "user_id = 1"
    (SqlExpr.atom "id = 1") c8stmt
    ({ type := PermissionType.row, table := "orders",
       condition := "user_id = 1" } : Permission)
    (by decide) rfl (by decide) rfl rfl rfl (by decide) (by decide)

/-- Fact: the rewriter never touches the FROM list. -/
theorem addSelectSecurity_fromTables (perms : List Permission) (userID : Int)
    (s s1 : SelectStmt) (h : addSelectSecurity perms userID s = Except.ok s1) :
    s1.fromTables = s.fromTables := by
  unfold addSelectSecurity at h
  cases hcc : collectConditions s.fromTables perms userID (s.fromTables.map TableRef.name) with
  | error e => rw [hcc] at h; exact Except.noConfusion h
  | ok cs =>
    rw [hcc] at h
    dsimp only at h
    by_cases hemp : cs.isEmpty
    · rw [if_pos hemp] at h
      injection h with h1
      rw [← h1]
    · rw [if_neg hemp] at h
      cases hw : s.whereE with
      | none => rw [hw] at h; injection h with h1; rw [← h1]
      | some e => rw [hw] at h; injection h with h1; rw [← h1]

/-- Statement after one rewrite of c8stmt: the condition is conjoined once. -/
def c8once : SelectStmt :=
  { fromTables := [{ name := "orders" }],
    whereE := some (SqlExpr.andE (SqlExpr.atom "id = 1") (SqlExpr.atom "user_id = 1")) }

/-- Statement after rewriting c8once again: the same condition appears a
    second time. -/
def c8twice : SelectStmt :=
  { fromTables := [{ name := "orders" }],
    whereE := some (SqlExpr.andE
      (SqlExpr.andE (SqlExpr.atom "id = 1") (SqlExpr.atom "user_id = 1"))
      (SqlExpr.atom "user_id = 1")) }

/-- C8 counterexample: rewriting the once-rewritten statement again with the
    same permissions injects the stored condition a second time, so the second
    output differs from the single-rewrite output: the injected condition is
    duplicated in the WHERE clause. -/
theorem c8_counterexample :
    transformQuery c8perms 1 c8stmt = Except.ok c8once ∧
    transformQuery c8perms 1 c8once = Except.ok c8twice ∧
    c8twice ≠ c8once :=
  ⟨rfl, rfl, by decide⟩

/-- C8 (amended): rewriting twice with unchanged permissions duplicates the
    injected conjunct rather than leaving the text unchanged, but the second
    output keeps the FROM list of the first and its WHERE clause selects
    exactly the same rows, the duplicate being absorbed by Boolean
    idempotence; so the executed result set is unchanged. -/
theorem c8_semantic_idempotence (perms : List Permission) (userID : Int)
    (s s1 s2 : SelectStmt)
    (h1 : transformQuery perms userID s = Except.ok s1)
    (h2 : transformQuery perms userID s1 = Except.ok s2) :
    s2.fromTables = s1.fromTables ∧
    ∀ env, evalWhere env s2.whereE = evalWhere env s1.whereE := by
  unfold transformQuery at h1 h2
  by_cases hAny : perms.any (fun p => p.type == PermissionType.row) = true
  · rw [if_pos hAny] at h1 h2
    have hft : s1.fromTables = s.fromTables :=
      addSelectSecurity_fromTables perms userID s s1 h1
    unfold addSelectSecurity at h1 h2
    rw [hft] at h2
    cases hcc : collectConditions s.fromTables perms userID (s.fromTables.map TableRef.name) with
    | error e =>
      rw [hcc] at h1
      exact Except.noConfusion h1
    | ok cs =>
      rw [hcc] at h1 h2
      dsimp only at h1 h2
      by_cases hemp : cs.isEmpty
      · rw [if_pos hemp] at h1 h2
        injection h1 with e1
        injection h2 with e2
        subst e1
        subst e2
        exact ⟨rfl, fun env => rfl⟩
      · rw [if_neg hemp] at h1 h2
        cases hw : s.whereE with
        | none =>
          rw [hw] at h1
          dsimp only at h1
          injection h1 with e1
          subst e1
          dsimp only at h2
          injection h2 with e2
          subst e2
          exact ⟨rfl, fun env => by simp [evalWhere, evalExpr]⟩
        | some e =>
          rw [hw] at h1
          dsimp only at h1
          injection h1 with e1
          subst e1
          dsimp only at h2
          injection h2 with e2
          subst e2
          exact ⟨rfl, fun env => by simp [evalWhere, evalExpr, Bool.and_assoc]⟩
  · rw [if_neg hAny] at h1 h2
    injection h1 with e1
    injection h2 with e2
    subst e1
    subst e2
    exact ⟨rfl, fun env => rfl⟩

/-- Witness for C8: the semantic idempotence applied to the concrete
    once- and twice-rewritten statements. -/
theorem c8_semantic_idempotence_witness :
    c8twice.fromTables = c8once.fromTables ∧
    ∀ env, evalWhere env c8twice.whereE = evalWhere env c8once.whereE :=
  c8_semantic_idempotence c8perms 1 c8stmt c8once c8twice rfl rfl

/-- C9 (confirmed): a statement whose parse is the DDL shape is handed to the
    underlying engine by Exec before any table, column or row check runs, for
    every caller and every permission list; in particular no permission list
    makes Exec deny it. -/
theorem c9_ddl_bypasses_checks (username query : String) (perms : List Permission)
    (a : Action) (h : getActionType query = Except.ok a) :
    exec username perms query Stmt.ddl = ExecResult.executed := by
  unfold exec
  rw [h]
  rfl

/-- Witness for C9: a CREATE TABLE text with the DDL parse shape executes for
    a caller with the empty permission list. -/
theorem c9_ddl_bypasses_checks_witness :
    exec "mallory" [] "CREATE TABLE t (id INT)" Stmt.ddl = ExecResult.executed :=
  c9_ddl_bypasses_checks "mallory" "CREATE TABLE t (id INT)" [] Action.create rfl

/-- C10 (confirmed): a successful role assignment to an existing user replaces
    the entire stored permission list with exactly the single table-scope role
    marker record; nothing previously granted survives in the store. -/
theorem c10_assign_replaces_all (st st2 : MemoryProvider) (u r : String)
    (hu : (st.users.lookup u).isSome = true)
    (h : assignRoleToUser st u r = Except.ok st2) :
    getUserPermissions st2 u =
      Except.ok [{ type := PermissionType.table, table := r }] := by
  unfold assignRoleToUser at h
  by_cases ha : authenticate st u "" = true
  · rw [if_pos ha] at h
    injection h with h1
    subst h1
    unfold getUserPermissions updateUserPermissions
    simp [hu, Function.update_same]
  · rw [if_neg ha] at h
    exact Except.noConfusion h

/-- Store used to instantiate the C10 theorem: one user with prior
    permissions of every scope. -/
def c10store : MemoryProvider :=
  { users := [("alice", "")],
    permissions := fun _ =>
      [ { type := PermissionType.table, table := "orders" },
        { type := PermissionType.column, table := "orders", column := "total" },
        { type := PermissionType.row, table := "orders",
          condition := "user_id = 42" } ] }

/-- Witness for C10: assigning the admin role to alice leaves exactly the role
    marker in the store. -/
theorem c10_assign_replaces_all_witness :
    getUserPermissions
      (updateUserPermissions c10store "alice"
        [{ type := PermissionType.table, table := "admin" }]) "alice" =
      Except.ok [{ type := PermissionType.table, table := "admin" }] :=
  c10_assign_replaces_all c10store
    (updateUserPermissions c10store "alice"
      [{ type := PermissionType.table, table := "admin" }])
    "alice" "admin" (by decide) rfl

end SecureSqlite
